import Mathlib

/-!
Verification development for the Chinese-manufacturer expansion simulation
core of the Automotive-Consulting-Industry-Evolution repository.

The simulation core (`run_chinese_expansion_simulation` in
`src/models/industry_reconfiguration/chinese_manufacturer_expansion.py`)
is not present in the available sources (only its README description and a
notebook caller are), so the data model, transition rules and simulation
driver below are modelled from the specification's words, as marked on
each definition. Market shares are modelled as exact rationals.
-/

namespace ChineseExpansion

/-- Modelled from the spec: the expansion-strategy enumeration
{EXPORT, LOCAL_PRODUCTION, JOINT_VENTURE, ACQUISITION} of the missing
`chinese_manufacturer_expansion` module. -/
inductive Strategy where
  | EXPORT
  | LOCAL_PRODUCTION
  | JOINT_VENTURE
  | ACQUISITION
deriving DecidableEq, Repr

/-- Position of a strategy in the fixed progression
EXPORT → LOCAL_PRODUCTION → JOINT_VENTURE → ACQUISITION. -/
def Strategy.rank : Strategy → Nat
  | .EXPORT => 0
  | .LOCAL_PRODUCTION => 1
  | .JOINT_VENTURE => 2
  | .ACQUISITION => 3

/-- The later of two strategies in the fixed progression (used to model
monotonic strategy upgrades). -/
def Strategy.later (a b : Strategy) : Strategy :=
  if a.rank ≤ b.rank then b else a

/-- Modelled from the spec: the Entity Registry of the missing
`chinese_manufacturer_expansion` module — static definitions of
manufacturers, regions, segments and their parameters
(growth-rate baseline per segment, technology factor per
manufacturer and segment, receptiveness per region, initial share and
initial strategy). -/
structure Registry where
  manufacturers : List String
  regions : List String
  segments : List String
  base_growth_rate : String → ℚ
  technology_factor : String → String → ℚ
  receptiveness : String → ℚ
  initial_share : String → String → String → ℚ
  initial_strategy : String → Strategy

/-- Modelled from the spec: one row of the result table,
(year, manufacturer, region, segment, market_share, strategy). -/
structure MarketShareRecord where
  year : Nat
  manufacturer : String
  region : String
  segment : String
  market_share : ℚ
  strategy : Strategy
deriving DecidableEq, Repr

/-- Modelled from the spec: the ValidationError taxonomy of the missing
simulation driver (inverted year range, empty entity set, unknown
registry identifier). -/
inductive ValidationError where
  | invalid_year_range
  | empty_regions
  | empty_segments
  | empty_manufacturers
  | unknown_region
  | unknown_segment
  | unknown_manufacturer
deriving DecidableEq, Repr

/-- Clamp a rational to the interval [0, 1]. -/
def clamp01 (x : ℚ) : ℚ := max 0 (min 1 x)

/-- Modelled from the spec: the saturating growth formula of the missing
Transition Rules — next_share = current_share + base_growth_rate(segment)
* technology_factor(manufacturer, segment) * receptiveness(region)
* (1 - current_share), clamped to [0, 1]. -/
def next_share (reg : Registry) (m r s : String) (cur : ℚ) : ℚ :=
  clamp01 (cur +
    reg.base_growth_rate s * reg.technology_factor m s *
      reg.receptiveness r * (1 - cur))

/-- Modelled from the spec: the fixed strategy thresholds of the missing
Transition Rules — market share above 0.05 calls for LOCAL_PRODUCTION,
above 0.15 for JOINT_VENTURE. -/
def threshold_strategy (share : ℚ) : Strategy :=
  if 15/100 < share then .JOINT_VENTURE
  else if 5/100 < share then .LOCAL_PRODUCTION
  else .EXPORT

/-- Market share of a (manufacturer, region, segment) triple after `n`
simulated growth steps: the registry's initial share at step 0, then the
saturating growth formula each year. -/
def share_at (reg : Registry) (m r s : String) : Nat → ℚ
  | 0 => reg.initial_share m r s
  | n + 1 => next_share reg m r s (share_at reg m r s n)

/-- Strategy of a (manufacturer, region, segment) triple after `n`
simulated steps: starts from the registry's initial strategy, and each
year upgrades (never downgrades) to the threshold-implied strategy of the
current share. -/
def strategy_at (reg : Registry) (m r s : String) : Nat → Strategy
  | 0 => Strategy.later (reg.initial_strategy m)
      (threshold_strategy (share_at reg m r s 0))
  | n + 1 => Strategy.later (strategy_at reg m r s n)
      (threshold_strategy (share_at reg m r s (n + 1)))

/-- The result-table row for step `n` (calendar year `y0 + n`) of a
(manufacturer, region, segment) triple. -/
def mkRecord (reg : Registry) (y0 n : Nat) (m r s : String) :
    MarketShareRecord :=
  { year := y0 + n, manufacturer := m, region := r, segment := s,
    market_share := share_at reg m r s n,
    strategy := strategy_at reg m r s n }

/-- Modelled from the spec: the long-form result table of the missing
Simulation Driver — for each year from start to end inclusive, one row per
(manufacturer, region, segment) triple, appended in manufacturer-major,
region-minor, segment-innermost order. -/
def simulation_table (reg : Registry) (start_year end_year : Nat)
    (manufacturers regions segments : List String) :
    List MarketShareRecord :=
  (List.range (end_year - start_year + 1)).flatMap fun n =>
    manufacturers.flatMap fun m =>
      regions.flatMap fun r =>
        segments.map fun s => mkRecord reg start_year n m r s

/-- Modelled from the spec: the missing Simulation Driver
`run_chinese_expansion_simulation(start_year, end_year, regions,
segments, manufacturers)` — validates the request (year range ordered,
entity sets non-empty, all identifiers known to the registry) and either
fails fast with a ValidationError or returns the full result table. -/
def run_chinese_expansion_simulation (reg : Registry)
    (start_year end_year : Nat)
    (regions segments manufacturers : List String) :
    Except ValidationError (List MarketShareRecord) :=
  if end_year < start_year then .error .invalid_year_range
  else if regions = [] then .error .empty_regions
  else if segments = [] then .error .empty_segments
  else if manufacturers = [] then .error .empty_manufacturers
  else if ¬ (∀ r ∈ regions, r ∈ reg.regions) then .error .unknown_region
  else if ¬ (∀ s ∈ segments, s ∈ reg.segments) then .error .unknown_segment
  else if ¬ (∀ m ∈ manufacturers, m ∈ reg.manufacturers) then
    .error .unknown_manufacturer
  else .ok (simulation_table reg start_year end_year
    manufacturers regions segments)

instance {ε α : Type} [DecidableEq ε] [DecidableEq α] :
    DecidableEq (Except ε α) := fun a b =>
  match a, b with
  | .error e, .error f =>
      if h : e = f then .isTrue (by rw [h])
      else .isFalse (by intro hh; cases hh; exact h rfl)
  | .error _, .ok _ => .isFalse (by intro h; cases h)
  | .ok _, .error _ => .isFalse (by intro h; cases h)
  | .ok x, .ok y =>
      if h : x = y then .isTrue (by rw [h])
      else .isFalse (by intro hh; cases hh; exact h rfl)

/-- Concrete single-manufacturer registry matching the spec's example
scenario: base_growth_rate = 0.1, technology_factor = 1,
receptiveness = 1, initial share = 0.02, initial strategy EXPORT. -/
def byd_registry : Registry :=
  { manufacturers := ["BYD"], regions := ["CHINA"], segments := ["EV"],
    base_growth_rate := fun _ => 1/10,
    technology_factor := fun _ _ => 1,
    receptiveness := fun _ => 1,
    initial_share := fun _ _ _ => 1/50,
    initial_strategy := fun _ => .EXPORT }

/-- Expected 2025 row of the spec's example scenario: the seed share
0.02 = 1/50 with the initial EXPORT strategy. -/
def byd_row_2025 : MarketShareRecord :=
  { year := 2025, manufacturer := "BYD", region := "CHINA",
    segment := "EV", market_share := 1/50, strategy := .EXPORT }

/-- Expected 2026 row of the spec's example scenario:
0.02 + 0.1 * 1 * 1 * (1 - 0.02) = 0.118 = 59/500, with the strategy
upgraded past the 0.05 threshold. -/
def byd_row_2026 : MarketShareRecord :=
  { year := 2026, manufacturer := "BYD", region := "CHINA",
    segment := "EV", market_share := 59/500,
    strategy := .LOCAL_PRODUCTION }

section Lemmas

variable (reg : Registry) (m r s : String)

theorem clamp01_nonneg (x : ℚ) : 0 ≤ clamp01 x := le_max_left 0 _

theorem clamp01_le_one (x : ℚ) : clamp01 x ≤ 1 :=
  max_le zero_le_one (min_le_left 1 x)

theorem clamp01_eq_self {x : ℚ} (h0 : 0 ≤ x) (h1 : x ≤ 1) :
    clamp01 x = x := by
  unfold clamp01
  rw [min_eq_right h1, max_eq_right h0]

theorem le_clamp01 {x y : ℚ} (hy1 : y ≤ 1) (hyx : y ≤ x) :
    y ≤ clamp01 x :=
  le_trans (le_min hy1 hyx) (le_max_right 0 _)

theorem rank_le_later_left (a b : Strategy) :
    a.rank ≤ (Strategy.later a b).rank := by
  unfold Strategy.later
  split
  · assumption
  · exact le_refl _

theorem rank_le_later_right (a b : Strategy) :
    b.rank ≤ (Strategy.later a b).rank := by
  unfold Strategy.later
  split
  · exact le_refl _
  · omega

theorem share_at_zero : share_at reg m r s 0 = reg.initial_share m r s :=
  rfl

theorem share_at_succ (n : Nat) :
    share_at reg m r s (n + 1) =
      next_share reg m r s (share_at reg m r s n) := rfl

theorem strategy_at_zero :
    strategy_at reg m r s 0 =
      Strategy.later (reg.initial_strategy m)
        (threshold_strategy (reg.initial_share m r s)) := rfl

theorem strategy_at_succ (n : Nat) :
    strategy_at reg m r s (n + 1) =
      Strategy.later (strategy_at reg m r s n)
        (threshold_strategy (share_at reg m r s (n + 1))) := rfl

theorem threshold_strategy_of_low {x : ℚ} (h : x ≤ 5/100) :
    threshold_strategy x = .EXPORT := by
  unfold threshold_strategy
  rw [if_neg (by linarith), if_neg (by linarith)]

theorem threshold_strategy_of_mid {x : ℚ} (h1 : 5/100 < x)
    (h2 : x ≤ 15/100) : threshold_strategy x = .LOCAL_PRODUCTION := by
  unfold threshold_strategy
  rw [if_neg (by linarith), if_pos h1]

theorem threshold_strategy_of_high {x : ℚ} (h : 15/100 < x) :
    threshold_strategy x = .JOINT_VENTURE := by
  unfold threshold_strategy
  rw [if_pos h]

end Lemmas

section BydRun

theorem byd_share_zero :
    share_at byd_registry "BYD" "CHINA" "EV" 0 = 1/50 := rfl

theorem byd_share_one :
    share_at byd_registry "BYD" "CHINA" "EV" 1 = 59/500 := by
  show share_at byd_registry "BYD" "CHINA" "EV" (0 + 1) = 59/500
  rw [share_at_succ, share_at_zero]
  show clamp01 ((1:ℚ)/50 + 1/10 * 1 * 1 * (1 - 1/50)) = 59/500
  rw [clamp01_eq_self (by norm_num) (by norm_num)]
  norm_num

theorem byd_strategy_zero :
    strategy_at byd_registry "BYD" "CHINA" "EV" 0 = .EXPORT := by
  rw [strategy_at_zero]
  show Strategy.later .EXPORT (threshold_strategy (1/50)) = .EXPORT
  rw [threshold_strategy_of_low (by norm_num)]
  rfl

theorem byd_strategy_one :
    strategy_at byd_registry "BYD" "CHINA" "EV" 1 = .LOCAL_PRODUCTION := by
  show strategy_at byd_registry "BYD" "CHINA" "EV" (0 + 1) = _
  rw [strategy_at_succ, byd_strategy_zero]
  show Strategy.later .EXPORT
      (threshold_strategy (share_at byd_registry "BYD" "CHINA" "EV" 1)) = _
  rw [byd_share_one, threshold_strategy_of_mid (by norm_num) (by norm_num)]
  rfl

theorem byd_run_eq :
    run_chinese_expansion_simulation byd_registry 2025 2026
      ["CHINA"] ["EV"] ["BYD"] = .ok [byd_row_2025, byd_row_2026] := by
  have htab : simulation_table byd_registry 2025 2026 ["BYD"] ["CHINA"]
      ["EV"] = [byd_row_2025, byd_row_2026] := by
    show [mkRecord byd_registry 2025 0 "BYD" "CHINA" "EV",
          mkRecord byd_registry 2025 1 "BYD" "CHINA" "EV"] = _
    rw [show mkRecord byd_registry 2025 0 "BYD" "CHINA" "EV" =
          byd_row_2025 by
        unfold mkRecord byd_row_2025
        rw [byd_share_zero, byd_strategy_zero],
      show mkRecord byd_registry 2025 1 "BYD" "CHINA" "EV" =
          byd_row_2026 by
        unfold mkRecord byd_row_2026
        rw [byd_share_one, byd_strategy_one]]
  unfold run_chinese_expansion_simulation
  rw [if_neg (by norm_num), if_neg (by simp), if_neg (by simp),
    if_neg (by simp), if_neg (by simp [byd_registry]),
    if_neg (by simp [byd_registry]), if_neg (by simp [byd_registry]),
    htab]

end BydRun

section TableLemmas

variable (reg : Registry)

theorem length_flatMap_const {α β : Type} (l : List α) (f : α → List β)
    (k : Nat) (h : ∀ a ∈ l, (f a).length = k) :
    (l.flatMap f).length = l.length * k := by
  induction l with
  | nil => simp
  | cons a t ih =>
      rw [List.flatMap_cons, List.length_append, h a (by simp),
        ih (fun x hx => h x (List.mem_cons_of_mem a hx)),
        List.length_cons]
      ring

theorem simulation_table_length (y0 y1 : Nat) (ms rs ss : List String) :
    (simulation_table reg y0 y1 ms rs ss).length =
      (y1 - y0 + 1) * ms.length * rs.length * ss.length := by
  unfold simulation_table
  rw [length_flatMap_const _ _ (ms.length * (rs.length * ss.length))
      (fun n _ => by
        rw [length_flatMap_const _ _ (rs.length * ss.length)
          (fun m _ => by
            rw [length_flatMap_const _ _ ss.length
              (fun r _ => List.length_map _ _)])]),
    List.length_range]
  ring

theorem mem_simulation_table {rec : MarketShareRecord}
    {y0 y1 : Nat} {ms rs ss : List String} :
    rec ∈ simulation_table reg y0 y1 ms rs ss ↔
      ∃ n < y1 - y0 + 1, ∃ m ∈ ms, ∃ r ∈ rs, ∃ s ∈ ss,
        rec = mkRecord reg y0 n m r s := by
  unfold simulation_table
  simp only [List.mem_flatMap, List.mem_map, List.mem_range]
  constructor
  · rintro ⟨n, hn, m, hm, r, hr, s, hs, hrec⟩
    exact ⟨n, hn, m, hm, r, hr, s, hs, hrec.symm⟩
  · rintro ⟨n, hn, m, hm, r, hr, s, hs, hrec⟩
    exact ⟨n, hn, m, hm, r, hr, s, hs, hrec.symm⟩

theorem run_ok_table {y0 y1 : Nat} {rs ss ms : List String}
    {t : List MarketShareRecord}
    (h : run_chinese_expansion_simulation reg y0 y1 rs ss ms =
      .ok t) :
    t = simulation_table reg y0 y1 ms rs ss := by
  unfold run_chinese_expansion_simulation at h
  split_ifs at h
  exact (Except.ok.injEq _ _).mp h.symm

end TableLemmas

section Invariants

variable (reg : Registry) (m r s : String)

theorem share_at_bounds (h0 : 0 ≤ reg.initial_share m r s)
    (h1 : reg.initial_share m r s ≤ 1) (n : Nat) :
    0 ≤ share_at reg m r s n ∧ share_at reg m r s n ≤ 1 := by
  cases n with
  | zero => exact ⟨h0, h1⟩
  | succ k =>
      rw [share_at_succ]
      unfold next_share
      exact ⟨clamp01_nonneg _, clamp01_le_one _⟩

theorem share_at_le_succ
    (hc : 0 ≤ reg.base_growth_rate s * reg.technology_factor m s *
      reg.receptiveness r)
    (h0 : 0 ≤ reg.initial_share m r s)
    (h1 : reg.initial_share m r s ≤ 1) (n : Nat) :
    share_at reg m r s n ≤ share_at reg m r s (n + 1) := by
  obtain ⟨hb0, hb1⟩ := share_at_bounds reg m r s h0 h1 n
  rw [share_at_succ]
  unfold next_share
  apply le_clamp01 hb1
  nlinarith [mul_nonneg hc
    (by linarith : (0:ℚ) ≤ 1 - share_at reg m r s n)]

theorem share_at_mono
    (hc : 0 ≤ reg.base_growth_rate s * reg.technology_factor m s *
      reg.receptiveness r)
    (h0 : 0 ≤ reg.initial_share m r s)
    (h1 : reg.initial_share m r s ≤ 1) {n k : Nat} (hnk : n ≤ k) :
    share_at reg m r s n ≤ share_at reg m r s k :=
  monotone_nat_of_le_succ (share_at_le_succ reg m r s hc h0 h1) hnk

theorem strategy_rank_le_succ (n : Nat) :
    (strategy_at reg m r s n).rank ≤
      (strategy_at reg m r s (n + 1)).rank := by
  rw [strategy_at_succ]
  exact rank_le_later_left _ _

theorem strategy_rank_mono {n k : Nat} (hnk : n ≤ k) :
    (strategy_at reg m r s n).rank ≤ (strategy_at reg m r s k).rank :=
  monotone_nat_of_le_succ (strategy_rank_le_succ reg m r s) hnk

theorem threshold_le_strategy_at (n : Nat) :
    (threshold_strategy (share_at reg m r s n)).rank ≤
      (strategy_at reg m r s n).rank := by
  cases n with
  | zero => exact rank_le_later_right _ _
  | succ k =>
      rw [strategy_at_succ]
      exact rank_le_later_right _ _

theorem one_le_threshold_rank {x : ℚ} (h : 5/100 < x) :
    1 ≤ (threshold_strategy x).rank := by
  by_cases h2 : 15/100 < x
  · rw [threshold_strategy_of_high h2]
    simp [Strategy.rank]
  · rw [threshold_strategy_of_mid h (not_lt.mp h2)]
    exact le_refl _

theorem two_le_threshold_rank {x : ℚ} (h : 15/100 < x) :
    2 ≤ (threshold_strategy x).rank := by
  rw [threshold_strategy_of_high h]
  exact le_refl _

end Invariants

/-- C1: for every (manufacturer, region, segment) triple, the record of
each next simulated year carries market share
current_share + base_growth_rate(segment) *
technology_factor(manufacturer, segment) * receptiveness(region) *
(1 - current_share), clamped to [0, 1]. -/
theorem growth_formula_step (reg : Registry) (y0 y1 : Nat)
    (rs ss ms : List String) (t : List MarketShareRecord)
    (rec1 rec2 : MarketShareRecord)
    (hok : run_chinese_expansion_simulation reg y0 y1 rs ss ms =
      .ok t)
    (h1 : rec1 ∈ t) (h2 : rec2 ∈ t)
    (hm : rec2.manufacturer = rec1.manufacturer)
    (hr : rec2.region = rec1.region)
    (hs : rec2.segment = rec1.segment)
    (hy : rec2.year = rec1.year + 1) :
    rec2.market_share = clamp01 (rec1.market_share +
      reg.base_growth_rate rec1.segment *
        reg.technology_factor rec1.manufacturer rec1.segment *
        reg.receptiveness rec1.region * (1 - rec1.market_share)) := by
  rw [run_ok_table reg hok] at h1 h2
  obtain ⟨n1, hn1, m1, hm1, r1, hr1, s1, hs1, e1⟩ :=
    (mem_simulation_table reg).mp h1
  obtain ⟨n2, hn2, m2, hm2, r2, hr2, s2, hs2, e2⟩ :=
    (mem_simulation_table reg).mp h2
  subst e1
  subst e2
  simp only [mkRecord] at hm hr hs hy ⊢
  subst hm
  subst hr
  subst hs
  have hn : n2 = n1 + 1 := by omega
  subst hn
  rw [share_at_succ]
  rfl

/-- C2: every record of a successful run has market share in [0, 1],
given a registry whose initial shares lie in [0, 1]. -/
theorem market_share_in_unit_interval (reg : Registry) (y0 y1 : Nat)
    (rs ss ms : List String) (t : List MarketShareRecord)
    (hinit : ∀ m r s, 0 ≤ reg.initial_share m r s ∧
      reg.initial_share m r s ≤ 1)
    (hok : run_chinese_expansion_simulation reg y0 y1 rs ss ms =
      .ok t)
    (rec : MarketShareRecord) (hrec : rec ∈ t) :
    0 ≤ rec.market_share ∧ rec.market_share ≤ 1 := by
  rw [run_ok_table reg hok] at hrec
  obtain ⟨n, hn, m, hm, r, hr, s, hs, e⟩ :=
    (mem_simulation_table reg).mp hrec
  subst e
  simp only [mkRecord]
  exact share_at_bounds reg m r s (hinit m r s).1 (hinit m r s).2 n

/-- C3: for a fixed (manufacturer, region, segment) triple the recorded
market share is non-decreasing year over year, given nonnegative growth
parameters and initial shares in [0, 1]; in the exact-rational model the
fixed-point case is stability, with no floating-point tolerance needed. -/
theorem market_share_monotone (reg : Registry) (y0 y1 : Nat)
    (rs ss ms : List String) (t : List MarketShareRecord)
    (hg : ∀ s, 0 ≤ reg.base_growth_rate s)
    (ht : ∀ m s, 0 ≤ reg.technology_factor m s)
    (hrc : ∀ r, 0 ≤ reg.receptiveness r)
    (hinit : ∀ m r s, 0 ≤ reg.initial_share m r s ∧
      reg.initial_share m r s ≤ 1)
    (hok : run_chinese_expansion_simulation reg y0 y1 rs ss ms =
      .ok t)
    (rec1 rec2 : MarketShareRecord)
    (h1 : rec1 ∈ t) (h2 : rec2 ∈ t)
    (hm : rec2.manufacturer = rec1.manufacturer)
    (hr : rec2.region = rec1.region)
    (hs : rec2.segment = rec1.segment)
    (hy : rec1.year ≤ rec2.year) :
    rec1.market_share ≤ rec2.market_share := by
  rw [run_ok_table reg hok] at h1 h2
  obtain ⟨n1, hn1, m1, hm1, r1, hr1, s1, hs1, e1⟩ :=
    (mem_simulation_table reg).mp h1
  obtain ⟨n2, hn2, m2, hm2, r2, hr2, s2, hs2, e2⟩ :=
    (mem_simulation_table reg).mp h2
  subst e1
  subst e2
  simp only [mkRecord] at hm hr hs hy ⊢
  subst hm
  subst hr
  subst hs
  have hn : n1 ≤ n2 := by omega
  exact share_at_mono reg _ _ _
    (mul_nonneg (mul_nonneg (hg _) (ht _ _)) (hrc _))
    (hinit _ _ _).1 (hinit _ _ _).2 hn

/-- C4: for a fixed (manufacturer, region, segment) triple the recorded
strategy only ever moves forward in the fixed progression
EXPORT → LOCAL_PRODUCTION → JOINT_VENTURE → ACQUISITION (its rank in
that progression is non-decreasing year over year). -/
theorem strategy_progression_monotone (reg : Registry) (y0 y1 : Nat)
    (rs ss ms : List String) (t : List MarketShareRecord)
    (hok : run_chinese_expansion_simulation reg y0 y1 rs ss ms =
      .ok t)
    (rec1 rec2 : MarketShareRecord)
    (h1 : rec1 ∈ t) (h2 : rec2 ∈ t)
    (hm : rec2.manufacturer = rec1.manufacturer)
    (hr : rec2.region = rec1.region)
    (hs : rec2.segment = rec1.segment)
    (hy : rec1.year ≤ rec2.year) :
    rec1.strategy.rank ≤ rec2.strategy.rank := by
  rw [run_ok_table reg hok] at h1 h2
  obtain ⟨n1, hn1, m1, hm1, r1, hr1, s1, hs1, e1⟩ :=
    (mem_simulation_table reg).mp h1
  obtain ⟨n2, hn2, m2, hm2, r2, hr2, s2, hs2, e2⟩ :=
    (mem_simulation_table reg).mp h2
  subst e1
  subst e2
  simp only [mkRecord] at hm hr hs hy ⊢
  subst hm
  subst hr
  subst hs
  have hn : n1 ≤ n2 := by omega
  exact strategy_rank_mono reg _ _ _ hn

/-- C5: in every record of a successful run the strategy is upgraded at
the fixed thresholds of the current market share: past 0.05 it is at
least LOCAL_PRODUCTION, past 0.15 at least JOINT_VENTURE, in the rank
order of the fixed progression. -/
theorem strategy_threshold_upgrade (reg : Registry) (y0 y1 : Nat)
    (rs ss ms : List String) (t : List MarketShareRecord)
    (hok : run_chinese_expansion_simulation reg y0 y1 rs ss ms =
      .ok t)
    (rec : MarketShareRecord) (hrec : rec ∈ t) :
    (5/100 < rec.market_share →
      Strategy.LOCAL_PRODUCTION.rank ≤ rec.strategy.rank) ∧
    (15/100 < rec.market_share →
      Strategy.JOINT_VENTURE.rank ≤ rec.strategy.rank) := by
  rw [run_ok_table reg hok] at hrec
  obtain ⟨n, hn, m, hm, r, hr, s, hs, e⟩ :=
    (mem_simulation_table reg).mp hrec
  subst e
  simp only [mkRecord]
  constructor
  · intro h
    exact le_trans (one_le_threshold_rank h)
      (threshold_le_strategy_at reg m r s n)
  · intro h
    exact le_trans (two_le_threshold_rank h)
      (threshold_le_strategy_at reg m r s n)

/-- C6: a successful run's result table has exactly
(end_year − start_year + 1) × |manufacturers| × |regions| × |segments|
rows. -/
theorem result_row_count (reg : Registry) (y0 y1 : Nat)
    (rs ss ms : List String) (t : List MarketShareRecord)
    (hok : run_chinese_expansion_simulation reg y0 y1 rs ss ms =
      .ok t) :
    t.length = (y1 - y0 + 1) * ms.length * rs.length * ss.length := by
  rw [run_ok_table reg hok]
  exact simulation_table_length reg y0 y1 ms rs ss

/-- C7: the simulation driver signals a ValidationError — returning no
result rows at all — whenever the year range is inverted, the requested
region or segment set is empty, or a requested region, segment or
manufacturer identifier is absent from the registry. -/
theorem validation_failure (reg : Registry) (y0 y1 : Nat)
    (rs ss ms : List String)
    (h : y0 > y1 ∨ rs = [] ∨ ss = [] ∨
      (∃ r ∈ rs, r ∉ reg.regions) ∨ (∃ s ∈ ss, s ∉ reg.segments) ∨
      (∃ m ∈ ms, m ∉ reg.manufacturers)) :
    ∃ e, run_chinese_expansion_simulation reg y0 y1 rs ss ms =
      .error e := by
  unfold run_chinese_expansion_simulation
  split_ifs with c1 c2 c3 c4 c5 c6 c7 <;> try exact ⟨_, rfl⟩
  exfalso
  rcases h with h | h | h | ⟨r, hr, hnr⟩ | ⟨s, hs, hns⟩ | ⟨m, hm, hnm⟩
  · exact c1 h
  · exact c2 h
  · exact c3 h
  · exact hnr (c5 r hr)
  · exact hns (c6 s hs)
  · exact hnm (c7 m hm)

/-- C8: two runs with identical inputs produce exactly equal output —
the simulation is deterministic. -/
theorem run_deterministic (reg1 reg2 : Registry) (y01 y02 y11 y12 : Nat)
    (rs1 rs2 ss1 ss2 ms1 ms2 : List String)
    (h : reg1 = reg2 ∧ y01 = y02 ∧ y11 = y12 ∧ rs1 = rs2 ∧
      ss1 = ss2 ∧ ms1 = ms2) :
    run_chinese_expansion_simulation reg1 y01 y11 rs1 ss1 ms1 =
      run_chinese_expansion_simulation reg2 y02 y12 rs2 ss2 ms2 := by
  obtain ⟨h1, h2, h3, h4, h5, h6⟩ := h
  subst h1
  subst h2
  subst h3
  subst h4
  subst h5
  subst h6
  rfl

/-- C10: the spec's example scenario — one manufacturer with
base_growth_rate 0.1, technology factor 1, receptiveness 1 and initial
share 0.02, run from 2025 to 2026 over CHINA × EV — yields exactly the
2025 row with share 0.02 and the 2026 row with share
0.02 + 0.1 * 1 * 1 * (1 - 0.02) = 0.118 = 59/500. -/
theorem example_scenario_run :
    run_chinese_expansion_simulation byd_registry 2025 2026
      ["CHINA"] ["EV"] ["BYD"] = .ok [byd_row_2025, byd_row_2026] :=
  byd_run_eq

/-- Witness for C1 at the example scenario: the 2026 share 59/500 is the
growth formula applied to the 2025 share 1/50. -/
theorem growth_formula_step_witness :
    byd_row_2026.market_share = clamp01 (byd_row_2025.market_share +
      byd_registry.base_growth_rate byd_row_2025.segment *
        byd_registry.technology_factor byd_row_2025.manufacturer
          byd_row_2025.segment *
        byd_registry.receptiveness byd_row_2025.region *
        (1 - byd_row_2025.market_share)) :=
  growth_formula_step byd_registry 2025 2026 ["CHINA"] ["EV"] ["BYD"]
    [byd_row_2025, byd_row_2026] byd_row_2025 byd_row_2026
    byd_run_eq (by simp) (by simp) rfl rfl rfl rfl

/-- Witness for C2 at the example scenario's 2026 row. -/
theorem market_share_in_unit_interval_witness :
    0 ≤ byd_row_2026.market_share ∧ byd_row_2026.market_share ≤ 1 :=
  market_share_in_unit_interval byd_registry 2025 2026
    ["CHINA"] ["EV"] ["BYD"] [byd_row_2025, byd_row_2026]
    (fun m r s => ⟨by norm_num [byd_registry], by norm_num [byd_registry]⟩)
    byd_run_eq byd_row_2026 (by simp)

/-- Witness for C3 at the example scenario: the share does not decrease
from the 2025 row to the 2026 row. -/
theorem market_share_monotone_witness :
    byd_row_2025.market_share ≤ byd_row_2026.market_share :=
  market_share_monotone byd_registry 2025 2026
    ["CHINA"] ["EV"] ["BYD"] [byd_row_2025, byd_row_2026]
    (fun _ => by norm_num [byd_registry])
    (fun _ _ => by norm_num [byd_registry])
    (fun _ => by norm_num [byd_registry])
    (fun m r s => ⟨by norm_num [byd_registry], by norm_num [byd_registry]⟩)
    byd_run_eq byd_row_2025 byd_row_2026 (by simp) (by simp)
    rfl rfl rfl (by decide)

/-- Witness for C4 at the example scenario: the strategy rank does not
move backward from the 2025 row to the 2026 row. -/
theorem strategy_progression_monotone_witness :
    byd_row_2025.strategy.rank ≤ byd_row_2026.strategy.rank :=
  strategy_progression_monotone byd_registry 2025 2026
    ["CHINA"] ["EV"] ["BYD"] [byd_row_2025, byd_row_2026]
    byd_run_eq byd_row_2025 byd_row_2026 (by simp) (by simp)
    rfl rfl rfl (by decide)

/-- Witness for C5 at the example scenario's 2026 row, whose share
0.118 is past the 0.05 threshold. -/
theorem strategy_threshold_upgrade_witness :
    (5/100 < byd_row_2026.market_share →
      Strategy.LOCAL_PRODUCTION.rank ≤ byd_row_2026.strategy.rank) ∧
    (15/100 < byd_row_2026.market_share →
      Strategy.JOINT_VENTURE.rank ≤ byd_row_2026.strategy.rank) :=
  strategy_threshold_upgrade byd_registry 2025 2026
    ["CHINA"] ["EV"] ["BYD"] [byd_row_2025, byd_row_2026]
    byd_run_eq byd_row_2026 (by simp)

/-- Witness for C6 at the example scenario: two years over a single
(manufacturer, region, segment) choice give 2 × 1 × 1 × 1 rows. -/
theorem result_row_count_witness :
    ([byd_row_2025, byd_row_2026] : List MarketShareRecord).length =
      (2026 - 2025 + 1) * (["BYD"] : List String).length *
        (["CHINA"] : List String).length *
        (["EV"] : List String).length :=
  result_row_count byd_registry 2025 2026 ["CHINA"] ["EV"] ["BYD"]
    [byd_row_2025, byd_row_2026] byd_run_eq

/-- Witness for C7: an inverted year range (2026 down to 2025) is
rejected with a ValidationError. -/
theorem validation_failure_witness :
    ∃ e, run_chinese_expansion_simulation byd_registry 2026 2025
      ["CHINA"] ["EV"] ["BYD"] = .error e :=
  validation_failure byd_registry 2026 2025 ["CHINA"] ["EV"] ["BYD"]
    (Or.inl (by norm_num))

/-- Witness for C8: the example scenario run equals itself when re-run
with the same inputs. -/
theorem run_deterministic_witness :
    run_chinese_expansion_simulation byd_registry 2025 2026
        ["CHINA"] ["EV"] ["BYD"] =
      run_chinese_expansion_simulation byd_registry 2025 2026
        ["CHINA"] ["EV"] ["BYD"] :=
  run_deterministic byd_registry byd_registry 2025 2025 2026 2026
    ["CHINA"] ["CHINA"] ["EV"] ["EV"] ["BYD"] ["BYD"]
    ⟨rfl, rfl, rfl, rfl, rfl, rfl⟩

end ChineseExpansion
